import Mathlib

/-!
Shallow embedding of the ReSlides script parser.

The repository carries three copies of the line-oriented parser
`parseScript`:

* `src/script.js` (the web-app version) — modelled here as `parseScript`;
* `src/unnamed/part_000` — modelled as `parseScript_000`;
* the node test copy embedded in `src/unnamed/part_001` — modelled as
  `parseScript_001`.

Strings are modelled as `List Char`.  JavaScript regular-expression
prefix tests with the `i` flag are modelled by case-folding both sides
(`foldCase`); `parseFloat` is modelled on its grammar, the numeric value
read exactly as a rational (`jsParseFloat`).  The two older copies
dereference `current` without a null check in their keyword branches, so
their steps live in `Option`, with `none` standing for the thrown
`TypeError`.
-/

abbrev Str := List Char

/-- The whitespace characters relevant to JavaScript `trim` and `\s`
(the ASCII white space characters plus no-break space). -/
def isJsSpace (c : Char) : Bool :=
  c == ' ' || c == '\t' || c == '\n' || c == '\r' || c == '\x0b' ||
    c == '\x0c' || c == ' '

/-- Strip leading whitespace. -/
def trimLeft (s : Str) : Str := s.dropWhile isJsSpace

/-- Strip trailing whitespace. -/
def trimRight (s : Str) : Str := (s.reverse.dropWhile isJsSpace).reverse

/-- JavaScript `String.prototype.trim`. -/
def trim (s : Str) : Str := trimLeft (trimRight s)

/-- `raw.split(/\r?\n/)`: split on line feeds, a carriage return
immediately preceding a line feed is consumed together with it. -/
def splitLinesAux : Str → Str → List Str
  | [], acc => [acc.reverse]
  | [c], acc =>
    if c = '\n' then [acc.reverse, []]
    else [(c :: acc).reverse]
  | c :: c' :: rest, acc =>
    if c = '\n' then acc.reverse :: splitLinesAux (c' :: rest) []
    else if c = '\r' ∧ c' = '\n' then acc.reverse :: splitLinesAux rest []
    else splitLinesAux (c' :: rest) (c :: acc)

def splitLines (raw : Str) : List Str := splitLinesAux raw []

/-- Rejoin lines with a line feed (used to phrase blank-line removal). -/
def joinLines : List Str → Str
  | [] => []
  | [l] => l
  | l :: l' :: ls => l ++ '\n' :: joinLines (l' :: ls)

/-- Case canonicalization of a character for a JavaScript `/.../i`
regular expression without the `u` flag: ASCII lower-case letters map to
upper case, as do the accented Spanish vowels and eñe (each an exact
non-ASCII-to-non-ASCII upper-case mapping); a non-ASCII character whose
upper case would be ASCII is left alone, as in the ECMAScript
`Canonicalize` rule. -/
def foldCase (c : Char) : Char :=
  if 'a' ≤ c ∧ c ≤ 'z' then Char.ofNat (c.toNat - 32)
  else if c = 'á' then 'Á' else if c = 'é' then 'É'
  else if c = 'í' then 'Í' else if c = 'ó' then 'Ó'
  else if c = 'ú' then 'Ú' else if c = 'ñ' then 'Ñ'
  else c

/-- Case-insensitive prefix match: on success, return the remainder of
the input after the pattern (the regex-`replace` remainder). -/
def stripFold : Str → Str → Option Str
  | [], s => some s
  | _ :: _, [] => none
  | p :: ps, c :: cs => if foldCase p = foldCase c then stripFold ps cs else none

/-- First matching alternative of an ordered pattern list wins,
mirroring regex alternation. -/
def stripAlt (pats : List Str) (s : Str) : Option Str :=
  match pats with
  | [] => none
  | p :: ps =>
    match stripFold p s with
    | some r => some r
    | none => stripAlt ps s

/-- Regex `test` on a pattern alternation. -/
def testAlt (pats : List Str) (s : Str) : Bool := (stripAlt pats s).isSome

/-- `/^(Título|Titulo):/i` (script.js and part_000). -/
def tituloPats : List Str := ["Título:".toList, "Titulo:".toList]
/-- `/^Título:/i` (part_001: only the accented spelling). -/
def tituloPats001 : List Str := ["Título:".toList]
/-- `/^(Contenido|Contexto):/i`. -/
def contenidoPats : List Str := ["Contenido:".toList, "Contexto:".toList]
/-- `/^Datos:/i` — the only Data spelling recognized by script.js. -/
def datosPatsJS : List Str := ["Datos:".toList]
/-- part_000 tests `/^Datos:/i || /^Gráfica:/i || /^Grafica:/i`. -/
def datosTest000 : List Str := ["Datos:".toList, "Gráfica:".toList, "Grafica:".toList]
/-- part_000 strips `/^Gráfica:|^Grafica:|^Datos:/i` (replace order). -/
def datosStrip000 : List Str := ["Gráfica:".toList, "Grafica:".toList, "Datos:".toList]
/-- `/^(labels?|etiquetas?):/i` flattened in greedy alternation order. -/
def labelsPats : List Str :=
  ["labels:".toList, "label:".toList, "etiquetas:".toList, "etiqueta:".toList]
/-- part_000 tests `/^labels?/i` — no colon, no etiquetas. -/
def labelsTest000 : List Str := ["labels".toList, "label".toList]
/-- part_000 strips `/^labels?:/i`. -/
def labelsStrip000 : List Str := ["labels:".toList, "label:".toList]
/-- `/^(valores?|values?):/i` flattened in greedy alternation order. -/
def valoresPats : List Str :=
  ["valores:".toList, "valor:".toList, "values:".toList, "value:".toList]
/-- part_000 tests `/^(valores?|values?)/i` — no colon. -/
def valoresTest000 : List Str :=
  ["valores".toList, "valor".toList, "values".toList, "value".toList]
/-- `/^(Descripción|Descripcion):/i`. -/
def descPats : List Str := ["Descripción:".toList, "Descripcion:".toList]
/-- `/^Adjunto:/i`. -/
def adjPats : List Str := ["Adjunto:".toList]

/-- The regex test `/^Diapositiva\s+\d+/i`: the marker word, at least
one whitespace character, then at least one decimal digit. -/
def isMarkerLine (l : Str) : Bool :=
  match stripFold "Diapositiva".toList l with
  | none => false
  | some [] => false
  | some (c :: r) =>
    isJsSpace c &&
      (match r.dropWhile isJsSpace with
       | d :: _ => d.isDigit
       | [] => false)

/-- A JavaScript number as produced by `parseFloat`: NaN, a signed
infinity, or a finite value (read exactly as a rational). -/
inductive JSNum where
  | nan : JSNum
  | inf : Bool → JSNum
  | num : ℚ → JSNum
deriving DecidableEq, Repr

def JSNum.isNaN : JSNum → Bool
  | .nan => true
  | _ => false

def digitsVal (ds : Str) : ℕ :=
  ds.foldl (fun n c => 10 * n + (c.toNat - '0'.toNat)) 0

/-- `parseFloat`: skip leading whitespace, optional sign, then either
the literal `Infinity` or a decimal significand with optional exponent;
the longest valid numeric prefix is read and the rest ignored, and NaN
results when no digit is found. -/
def jsParseFloat (s0 : Str) : JSNum :=
  let s1 := s0.dropWhile isJsSpace
  let signed : Bool × Str :=
    match s1 with
    | '-' :: r => (true, r)
    | '+' :: r => (false, r)
    | _ => (false, s1)
  let neg := signed.1
  let s2 := signed.2
  if "Infinity".toList.isPrefixOf s2 then JSNum.inf (!neg)
  else
    let intDs := s2.takeWhile Char.isDigit
    let s3 := s2.dropWhile Char.isDigit
    let fracParts : Str × Str :=
      match s3 with
      | '.' :: r => (r.takeWhile Char.isDigit, r.dropWhile Char.isDigit)
      | _ => ([], s3)
    let fracDs := fracParts.1
    let s4 := fracParts.2
    if intDs = [] ∧ fracDs = [] then JSNum.nan
    else
      let mant : ℚ := (digitsVal intDs : ℚ) + (digitsVal fracDs : ℚ) / (10 : ℚ) ^ fracDs.length
      let expo : ℤ :=
        match s4 with
        | e :: r =>
          if e = 'e' ∨ e = 'E' then
            let esigned : Bool × Str :=
              match r with
              | '-' :: r' => (true, r')
              | '+' :: r' => (false, r')
              | _ => (false, r)
            let eds := esigned.2.takeWhile Char.isDigit
            if eds = [] then 0
            else if esigned.1 then -(digitsVal eds : ℤ) else (digitsVal eds : ℤ)
          else 0
        | [] => 0
      JSNum.num ((if neg then (-1 : ℚ) else 1) * mant * (10 : ℚ) ^ expo)

structure Graph where
  labels : List Str
  values : List JSNum
deriving DecidableEq, Repr

structure Slide where
  title : Str
  content : List Str
  graph : Option Graph
  description : Str
  attachments : List Str
deriving DecidableEq, Repr

/-- The fresh slide record every copy creates. -/
def emptySlide : Slide :=
  { title := [], content := [], graph := none, description := [], attachments := [] }

/-- `s.split(sep).map(x => x.trim()).filter(Boolean)`. -/
def splitTrimFilter (sep : Char) (s : Str) : List Str :=
  ((s.splitOn sep).map trim).filter (fun x => !x.isEmpty)

/-- `valStr.split(',').map(x => parseFloat(x.trim())).filter(v => !isNaN(v))`. -/
def parseValores (valStr : Str) : List JSNum :=
  ((valStr.splitOn ',').map (fun x => jsParseFloat (trim x))).filter (fun v => !v.isNaN)

/-- One `;`-section of a script.js `Datos:` line. -/
def datosSecJS (g : Graph) (sec : Str) : Graph :=
  let s := trim sec
  if s.isEmpty then g
  else if (stripAlt labelsPats s).isSome then
    { g with labels := splitTrimFilter ',' (trim ((stripAlt labelsPats s).getD s)) }
  else if (stripAlt valoresPats s).isSome then
    { g with values := parseValores (trim ((stripAlt valoresPats s).getD s)) }
  else g

/-- The graph built by a script.js `Datos:` line from the stripped,
trimmed remainder: a fresh record folded over the `;`-sections. -/
def parseDatosJS (rest : Str) : Graph :=
  (rest.splitOn ';').foldl datosSecJS { labels := [], values := [] }

/-- One section of a part_000/part_001 data line (sections arrive
already trimmed there; the colonless tests and colonful strips of the
source are both mirrored, a non-stripping replace leaving the section
unchanged). -/
def datosSec000 (g : Graph) (sec : Str) : Graph :=
  if testAlt labelsTest000 sec then
    { g with labels := splitTrimFilter ',' ((stripAlt labelsStrip000 sec).getD sec) }
  else if testAlt valoresTest000 sec then
    { g with values := parseValores ((stripAlt valoresPats sec).getD sec) }
  else g

/-- The graph built by a part_000/part_001 data line from the stripped,
trimmed remainder. -/
def parseDatos000 (rest : Str) : Graph :=
  ((rest.splitOn ';').map trim).foldl datosSec000 { labels := [], values := [] }

/-- Parser state: the flushed slides and the current slide cursor. -/
abbrev PState := List Slide × Option Slide

/-- Flush the current slide, if any, onto the output sequence. -/
def pushCur (sl : List Slide) (cur : Option Slide) : List Slide :=
  match cur with
  | some c => sl ++ [c]
  | none => sl

/-- `if (!current) startNewSlide()` in script.js: with a null current
nothing is flushed and a fresh slide becomes current. -/
def ensureCur (st : PState) : List Slide × Slide :=
  match st.2 with
  | some c => (st.1, c)
  | none => (st.1, emptySlide)

/-- One loop iteration of `parseScript` in src/script.js. -/
def stepJS (st : PState) (rawLine : Str) : PState :=
  let line := trim rawLine
  if line.isEmpty then st
  else if isMarkerLine line then (pushCur st.1 st.2, some emptySlide)
  else if (stripAlt tituloPats line).isSome then
    let p := ensureCur st
    (p.1, some { p.2 with title := trim ((stripAlt tituloPats line).getD line) })
  else if (stripAlt contenidoPats line).isSome then
    let p := ensureCur st
    let text := trim ((stripAlt contenidoPats line).getD line)
    let cont := if text.isEmpty then p.2.content else p.2.content ++ splitTrimFilter ';' text
    (p.1, some { p.2 with content := cont })
  else if (stripAlt datosPatsJS line).isSome then
    let p := ensureCur st
    let g := parseDatosJS (trim ((stripAlt datosPatsJS line).getD line))
    (p.1, some { p.2 with graph := some g })
  else if (stripAlt descPats line).isSome then
    let p := ensureCur st
    (p.1, some { p.2 with description := trim ((stripAlt descPats line).getD line) })
  else if (stripAlt adjPats line).isSome then
    let p := ensureCur st
    let rest := trim ((stripAlt adjPats line).getD line)
    let att := if rest.isEmpty then p.2.attachments else p.2.attachments ++ splitTrimFilter ',' rest
    (p.1, some { p.2 with attachments := att })
  else
    let p := ensureCur st
    (p.1, some { p.2 with content := p.2.content ++ splitTrimFilter ';' line })

def parseLinesJS (ls : List Str) : List Slide :=
  let st := ls.foldl stepJS ([], none)
  pushCur st.1 st.2

/-- `parseScript` of src/script.js. -/
def parseScript (raw : Str) : List Slide := parseLinesJS (splitLines raw)

/-- One loop iteration of `parseScript` in src/unnamed/part_000; the
keyword branches dereference `current` without a null check, modelled by
returning `none` (a thrown TypeError) when there is no current slide.
The fallback branch is guarded by `else if (current)` and merely skips
the line otherwise. -/
def step000 (st : PState) (line : Str) : Option PState :=
  if isMarkerLine line then some (pushCur st.1 st.2, some emptySlide)
  else if (stripAlt tituloPats line).isSome then
    match st.2 with
    | none => none
    | some c => some (st.1, some { c with title := trim ((stripAlt tituloPats line).getD line) })
  else if (stripAlt contenidoPats line).isSome then
    match st.2 with
    | none => none
    | some c =>
      let parts := splitTrimFilter ';' (trim ((stripAlt contenidoPats line).getD line))
      some (st.1, some { c with content := c.content ++ parts })
  else if testAlt datosTest000 line then
    match st.2 with
    | none => none
    | some c =>
      let g := parseDatos000 (trim ((stripAlt datosStrip000 line).getD line))
      some (st.1, some { c with graph := some g })
  else if (stripAlt descPats line).isSome then
    match st.2 with
    | none => none
    | some c => some (st.1, some { c with description := trim ((stripAlt descPats line).getD line) })
  else if (stripAlt adjPats line).isSome then
    match st.2 with
    | none => none
    | some c =>
      let att := splitTrimFilter ',' ((stripAlt adjPats line).getD line)
      some (st.1, some { c with attachments := c.attachments ++ att })
  else
    match st.2 with
    | none => some st
    | some c => some (st.1, some { c with content := c.content ++ splitTrimFilter ';' line })

/-- part_000 pre-processing: split, trim every line, drop empties. -/
def lines000 (raw : Str) : List Str :=
  ((splitLines raw).map trim).filter (fun l => !l.isEmpty)

def parseLines000 (ls : List Str) : Option (List Slide) := do
  let st ← ls.foldlM step000 ([], none)
  pure (pushCur st.1 st.2)

/-- `parseScript` of src/unnamed/part_000. -/
def parseScript_000 (raw : Str) : Option (List Slide) := parseLines000 (lines000 raw)

/-- One loop iteration of the `parseScript` copy in src/unnamed/part_001:
identical to part_000 except that the title branch accepts only the
accented spelling `/^Título:/i`. -/
def step001 (st : PState) (line : Str) : Option PState :=
  if isMarkerLine line then some (pushCur st.1 st.2, some emptySlide)
  else if (stripAlt tituloPats001 line).isSome then
    match st.2 with
    | none => none
    | some c => some (st.1, some { c with title := trim ((stripAlt tituloPats001 line).getD line) })
  else if (stripAlt contenidoPats line).isSome then
    match st.2 with
    | none => none
    | some c =>
      let parts := splitTrimFilter ';' (trim ((stripAlt contenidoPats line).getD line))
      some (st.1, some { c with content := c.content ++ parts })
  else if testAlt datosTest000 line then
    match st.2 with
    | none => none
    | some c =>
      let g := parseDatos000 (trim ((stripAlt datosStrip000 line).getD line))
      some (st.1, some { c with graph := some g })
  else if (stripAlt descPats line).isSome then
    match st.2 with
    | none => none
    | some c => some (st.1, some { c with description := trim ((stripAlt descPats line).getD line) })
  else if (stripAlt adjPats line).isSome then
    match st.2 with
    | none => none
    | some c =>
      let att := splitTrimFilter ',' ((stripAlt adjPats line).getD line)
      some (st.1, some { c with attachments := c.attachments ++ att })
  else
    match st.2 with
    | none => some st
    | some c => some (st.1, some { c with content := c.content ++ splitTrimFilter ';' line })

def parseLines001 (ls : List Str) : Option (List Slide) := do
  let st ← ls.foldlM step001 ([], none)
  pure (pushCur st.1 st.2)

/-- `parseScript` of the node test copy in src/unnamed/part_001. -/
def parseScript_001 (raw : Str) : Option (List Slide) := parseLines001 (lines000 raw)

/-- The input with every line that is blank after trimming removed, the
remaining lines rejoined with a line feed. -/
def removeBlankLines (raw : Str) : Str :=
  joinLines ((splitLines raw).filter (fun l => !(trim l).isEmpty))

/-- Drop a single trailing carriage return (what rejoining with a line
feed and resplitting does to an interior line). -/
def chop : Str → Str
  | [] => []
  | [c] => if c = '\r' then [] else [c]
  | c :: c' :: cs => c :: chop (c' :: cs)

/-- The union of the keyword/marker tests of all three parser copies
(part_000 has the largest keyword set; script.js and part_001 recognize
subsets of it). -/
def isKeyword000 (line : Str) : Bool :=
  isMarkerLine line || (stripAlt tituloPats line).isSome ||
    (stripAlt contenidoPats line).isSome || testAlt datosTest000 line ||
    (stripAlt descPats line).isSome || (stripAlt adjPats line).isSome

/-- Every fragment in the list is non-empty and not whitespace-only. -/
def fragsOk (xs : List Str) : Prop := ∀ x ∈ xs, trim x ≠ []

/-- The no-empty-fragment invariant of one slide: over its content,
graph labels, and attachments. -/
def slideOk (s : Slide) : Prop :=
  fragsOk s.content ∧ (∀ g, s.graph = some g → fragsOk g.labels) ∧ fragsOk s.attachments

/-- The invariant over a parser state. -/
def stOk (st : PState) : Prop :=
  (∀ s ∈ st.1, slideOk s) ∧ ∀ c, st.2 = some c → slideOk c

/-! ### Whitespace and trimming lemmas -/

lemma dropWhile_append_cons_of_neg {p : Char → Bool} (as : Str) {b : Char} (bs : Str)
    (h : p b = false) :
    (as ++ b :: bs).dropWhile p = as.dropWhile p ++ b :: bs := by
  induction as with
  | nil => simp [List.dropWhile_cons, h]
  | cons a as ih => by_cases ha : p a <;> simp [List.dropWhile_cons, ha, ih]

lemma dropWhile_idem (p : Char → Bool) (l : List Char) :
    (l.dropWhile p).dropWhile p = l.dropWhile p := by
  induction l with
  | nil => rfl
  | cons a l ih => by_cases h : p a <;> simp [List.dropWhile_cons, h, ih]

lemma trimRight_append_cons (as : Str) {b : Char} (bs : Str) (h : isJsSpace b = false) :
    trimRight (as ++ b :: bs) = as ++ b :: trimRight bs := by
  unfold trimRight
  have h1 : (as ++ b :: bs).reverse = bs.reverse ++ b :: as.reverse := by simp
  rw [h1, dropWhile_append_cons_of_neg _ _ h]
  simp

lemma trimLeft_cons (c : Char) (s : Str) :
    trimLeft (c :: s) = if isJsSpace c then trimLeft s else c :: s := by
  by_cases h : isJsSpace c <;> simp [trimLeft, List.dropWhile_cons, h]

lemma trimRight_cons (c : Char) (s : Str) :
    trimRight (c :: s) =
      if (trimRight s).isEmpty then (if isJsSpace c then [] else [c])
      else c :: trimRight s := by
  unfold trimRight
  rw [show (c :: s).reverse = s.reverse ++ [c] by simp, List.dropWhile_append]
  by_cases h : (s.reverse.dropWhile isJsSpace).isEmpty
  · rw [if_pos h]
    have h2 : ((s.reverse.dropWhile isJsSpace).reverse).isEmpty = true := by
      simp only [List.isEmpty_iff] at h ⊢
      simp [h]
    rw [if_pos h2]
    by_cases hc : isJsSpace c <;> simp [List.dropWhile_cons, hc]
  · rw [if_neg h]
    have h2 : ¬((s.reverse.dropWhile isJsSpace).reverse).isEmpty = true := by
      simp only [List.isEmpty_iff] at h ⊢
      simpa using h
    rw [if_neg h2]
    simp

lemma trimLeft_idem (s : Str) : trimLeft (trimLeft s) = trimLeft s :=
  dropWhile_idem _ _

lemma trimRight_idem (s : Str) : trimRight (trimRight s) = trimRight s := by
  unfold trimRight
  rw [List.reverse_reverse, dropWhile_idem]

lemma trimRight_trimLeft_comm (s : Str) : trimRight (trimLeft s) = trimLeft (trimRight s) := by
  induction s with
  | nil => rfl
  | cons c s ih =>
    rw [trimLeft_cons, trimRight_cons]
    by_cases hc : isJsSpace c
    · rw [if_pos hc, ih]
      by_cases he : (trimRight s).isEmpty
      · rw [if_pos he, if_pos hc]
        have : trimRight s = [] := List.isEmpty_iff.mp he
        simp [this, trimLeft]
      · rw [if_neg he, trimLeft_cons, if_pos hc]
    · rw [if_neg hc]
      by_cases he : (trimRight s).isEmpty
      · rw [if_pos he, if_neg hc, trimRight_cons, if_pos he, if_neg hc]
        simp [trimLeft_cons, hc]
      · rw [if_neg he, trimRight_cons, if_neg he, trimLeft_cons, if_neg hc]

lemma trim_idem (s : Str) : trim (trim s) = trim s := by
  unfold trim
  rw [trimRight_trimLeft_comm, trimRight_idem, trimLeft_idem]

lemma trim_trimRight (s : Str) : trim (trimRight s) = trim s := by
  unfold trim
  rw [trimRight_idem]

lemma trim_nil : trim [] = [] := rfl

/-! ### splitLines / joinLines lemmas -/

lemma splitLinesAux_nl (rest acc : Str) :
    splitLinesAux ('\n' :: rest) acc = acc.reverse :: splitLinesAux rest [] := by
  cases rest with
  | nil => rfl
  | cons c' rest' => rfl

lemma splitLinesAux_crnl (rest acc : Str) :
    splitLinesAux ('\r' :: '\n' :: rest) acc = acc.reverse :: splitLinesAux rest [] := rfl

lemma splitLinesAux_other {c : Char} (rest acc : Str) (h1 : c ≠ '\n') (h2 : c ≠ '\r') :
    splitLinesAux (c :: rest) acc = splitLinesAux rest (c :: acc) := by
  cases rest with
  | nil =>
    show (if c = '\n' then [acc.reverse, []] else [(c :: acc).reverse]) =
      splitLinesAux [] (c :: acc)
    rw [if_neg h1]
    rfl
  | cons c' rest' =>
    show (if c = '\n' then acc.reverse :: splitLinesAux (c' :: rest') []
      else if c = '\r' ∧ c' = '\n' then acc.reverse :: splitLinesAux rest' []
      else splitLinesAux (c' :: rest') (c :: acc)) = splitLinesAux (c' :: rest') (c :: acc)
    rw [if_neg h1, if_neg (fun hh => h2 hh.1)]

lemma splitLinesAux_cr_nil (acc : Str) :
    splitLinesAux ['\r'] acc = splitLinesAux [] ('\r' :: acc) := rfl

lemma splitLinesAux_cr_cons {c' : Char} (rest' acc : Str) (h : c' ≠ '\n') :
    splitLinesAux ('\r' :: c' :: rest') acc = splitLinesAux (c' :: rest') ('\r' :: acc) := by
  show (if ('\r' : Char) = '\n' then acc.reverse :: splitLinesAux (c' :: rest') []
    else if ('\r' : Char) = '\r' ∧ c' = '\n' then acc.reverse :: splitLinesAux rest' []
    else splitLinesAux (c' :: rest') ('\r' :: acc)) = splitLinesAux (c' :: rest') ('\r' :: acc)
  rw [if_neg (by decide : ¬('\r' : Char) = '\n'), if_neg (fun hh => h hh.2)]

lemma chop_cons (c : Char) (t : Str) (h : c ≠ '\r' ∨ t ≠ []) : chop (c :: t) = c :: chop t := by
  cases t with
  | nil =>
    rcases h with h | h
    · show (if c = '\r' then [] else [c]) = c :: chop []
      rw [if_neg h]
      rfl
    · exact absurd rfl h
  | cons d t2 => rfl

lemma chop_eq_or (l : Str) : chop l = l ∨ ∃ m, l = m ++ ['\r'] ∧ chop l = m := by
  induction l with
  | nil => exact Or.inl rfl
  | cons c t ih =>
    cases t with
    | nil =>
      by_cases h : c = '\r'
      · subst h
        exact Or.inr ⟨[], rfl, by rfl⟩
      · exact Or.inl (by rw [chop_cons c [] (Or.inl h)]; rfl)
    | cons d t2 =>
      have hcc : chop (c :: d :: t2) = c :: chop (d :: t2) := rfl
      rcases ih with h | ⟨m, hm, hcm⟩
      · exact Or.inl (by rw [hcc, h])
      · exact Or.inr ⟨c :: m, by rw [hm]; rfl, by rw [hcc, hcm]⟩

lemma trimRight_append_cr (m : Str) : trimRight (m ++ ['\r']) = trimRight m := by
  unfold trimRight
  rw [List.reverse_append]
  have h : isJsSpace '\r' = true := rfl
  simp [List.dropWhile_cons, h]

lemma trim_chop (l : Str) : trim (chop l) = trim l := by
  rcases chop_eq_or l with h | ⟨m, hm, hc⟩
  · rw [h]
  · rw [hc, hm]
    unfold trim
    rw [trimRight_append_cr]

lemma splitLinesAux_append_nl (l : Str) (rest : Str) (hl : '\n' ∉ l) :
    ∀ acc, splitLinesAux (l ++ '\n' :: rest) acc =
      (acc.reverse ++ chop l) :: splitLinesAux rest [] := by
  induction l with
  | nil =>
    intro acc
    rw [List.nil_append, splitLinesAux_nl]
    simp [chop]
  | cons c t ih =>
    intro acc
    have hc : c ≠ '\n' := fun h => hl (h ▸ List.mem_cons_self _ _)
    have hl' : '\n' ∉ t := fun h => hl (List.mem_cons_of_mem _ h)
    by_cases hr : c = '\r'
    · subst hr
      cases t with
      | nil =>
        rw [show (('\r' :: ([] : Str)) ++ '\n' :: rest) = '\r' :: '\n' :: rest from rfl,
          splitLinesAux_crnl]
        simp [chop]
      | cons d t2 =>
        have hd : d ≠ '\n' := fun h => hl' (h ▸ List.mem_cons_self _ _)
        rw [show (('\r' :: d :: t2) ++ '\n' :: rest) = '\r' :: ((d :: t2) ++ '\n' :: rest) from rfl]
        rw [show ((d :: t2) ++ '\n' :: rest) = d :: (t2 ++ '\n' :: rest) from rfl]
        rw [splitLinesAux_cr_cons _ _ hd]
        rw [show (d :: (t2 ++ '\n' :: rest)) = ((d :: t2) ++ '\n' :: rest) from rfl]
        rw [ih hl' ('\r' :: acc)]
        rw [chop_cons '\r' (d :: t2) (Or.inr (by simp))]
        simp
    · rw [show ((c :: t) ++ '\n' :: rest) = c :: (t ++ '\n' :: rest) from rfl]
      rw [splitLinesAux_other _ _ hc hr]
      rw [ih hl' (c :: acc)]
      rw [chop_cons c t (Or.inl hr)]
      simp

lemma splitLinesAux_noNL_eq (l : Str) (hl : '\n' ∉ l) :
    ∀ acc, splitLinesAux l acc = [acc.reverse ++ l] := by
  induction l with
  | nil =>
    intro acc
    rw [splitLinesAux.eq_1]
    simp
  | cons c t ih =>
    intro acc
    have hc : c ≠ '\n' := fun h => hl (h ▸ List.mem_cons_self _ _)
    have hl' : '\n' ∉ t := fun h => hl (List.mem_cons_of_mem _ h)
    by_cases hr : c = '\r'
    · subst hr
      cases t with
      | nil =>
        rw [splitLinesAux_cr_nil, splitLinesAux.eq_1]
        simp
      | cons d t2 =>
        have hd : d ≠ '\n' := fun h => hl' (h ▸ List.mem_cons_self _ _)
        rw [splitLinesAux_cr_cons _ _ hd, ih hl' ('\r' :: acc)]
        simp
    · rw [splitLinesAux_other _ _ hc hr, ih hl' (c :: acc)]
      simp

lemma splitLines_noNL_single (l : Str) (hl : '\n' ∉ l) : splitLines l = [l] := by
  unfold splitLines
  rw [splitLinesAux_noNL_eq l hl []]
  rfl

lemma splitLinesAux_noNL (n : ℕ) :
    ∀ (s acc : Str), s.length ≤ n → '\n' ∉ acc → ∀ l ∈ splitLinesAux s acc, '\n' ∉ l := by
  induction n with
  | zero =>
    intro s acc hlen hacc l hm
    have hs : s = [] := List.length_eq_zero.mp (Nat.le_zero.mp hlen)
    subst hs
    rw [splitLinesAux.eq_1] at hm
    simp only [List.mem_singleton] at hm
    subst hm
    simpa using hacc
  | succ n ih =>
    intro s acc hlen hacc l hm
    cases s with
    | nil =>
      rw [splitLinesAux.eq_1] at hm
      simp only [List.mem_singleton] at hm
      subst hm
      simpa using hacc
    | cons c rest =>
      have hlen' : rest.length ≤ n := by simpa using hlen
      by_cases hc : c = '\n'
      · subst hc
        rw [splitLinesAux_nl] at hm
        rcases List.mem_cons.mp hm with h | h
        · subst h; simpa using hacc
        · exact ih rest [] hlen' (by simp) l h
      · by_cases hr : c = '\r'
        · subst hr
          cases rest with
          | nil =>
            rw [splitLinesAux_cr_nil, splitLinesAux.eq_1] at hm
            simp only [List.mem_singleton] at hm
            subst hm
            simp [hacc]
          | cons c' rest' =>
            by_cases hc' : c' = '\n'
            · subst hc'
              rw [splitLinesAux_crnl] at hm
              rcases List.mem_cons.mp hm with h | h
              · subst h; simpa using hacc
              · exact ih rest' [] (by simp at hlen'; omega) (by simp) l h
            · rw [splitLinesAux_cr_cons _ _ hc'] at hm
              refine ih (c' :: rest') ('\r' :: acc) hlen' ?_ l hm
              intro hmem
              rcases List.mem_cons.mp hmem with h | h
              · exact absurd h.symm (by decide)
              · exact hacc h
        · rw [splitLinesAux_other _ _ hc hr] at hm
          refine ih rest (c :: acc) hlen' ?_ l hm
          intro hmem
          rcases List.mem_cons.mp hmem with h | h
          · exact hc h.symm
          · exact hacc h

lemma splitLines_noNL (raw : Str) : ∀ l ∈ splitLines raw, '\n' ∉ l :=
  splitLinesAux_noNL raw.length raw [] le_rfl (by simp)

/-! ### Folding the script.js step over lines -/

lemma stepJS_nil (st : PState) : stepJS st [] = st := rfl

lemma stepJS_blank {l : Str} (h : (trim l).isEmpty = true) (st : PState) : stepJS st l = st := by
  simp [stepJS, h]

lemma stepJS_trim_congr (st : PState) {a b : Str} (h : trim a = trim b) :
    stepJS st a = stepJS st b := by
  unfold stepJS
  rw [h]

lemma foldl_stepJS_splitJoin : ∀ (ls : List Str), (∀ l ∈ ls, '\n' ∉ l) → ∀ (st : PState),
    (splitLines (joinLines ls)).foldl stepJS st = ls.foldl stepJS st := by
  intro ls
  induction ls with
  | nil =>
    intro _ st
    show (splitLinesAux [] []).foldl stepJS st = st
    rw [splitLinesAux.eq_1]
    simp only [List.reverse_nil, List.foldl_cons, List.foldl_nil, stepJS_nil]
  | cons l ls ih =>
    intro hno st
    cases ls with
    | nil =>
      rw [show joinLines [l] = l from rfl]
      rw [splitLines_noNL_single l (hno l (by simp))]
    | cons l' ls2 =>
      rw [show joinLines (l :: l' :: ls2) = l ++ '\n' :: joinLines (l' :: ls2) from rfl]
      show (splitLinesAux (l ++ '\n' :: joinLines (l' :: ls2)) []).foldl stepJS st = _
      rw [splitLinesAux_append_nl l _ (hno l (by simp)) []]
      simp only [List.reverse_nil, List.nil_append]
      rw [List.foldl_cons, List.foldl_cons]
      rw [show stepJS st (chop l) = stepJS st l from stepJS_trim_congr st (trim_chop l)]
      exact ih (fun x hx => hno x (by simp [hx])) (stepJS st l)

lemma foldl_stepJS_filter_blank : ∀ (ls : List Str) (st : PState),
    ls.foldl stepJS st = (ls.filter (fun l => !(trim l).isEmpty)).foldl stepJS st := by
  intro ls
  induction ls with
  | nil => intro st; rfl
  | cons l ls ih =>
    intro st
    by_cases h : (trim l).isEmpty
    · rw [List.foldl_cons, List.filter_cons, if_neg (by simp [h]), stepJS_blank h st]
      exact ih st
    · rw [List.foldl_cons, List.filter_cons, if_pos (by simp [h]), List.foldl_cons]
      exact ih (stepJS st l)

lemma filtered_trim_splitJoin : ∀ (ls : List Str), (∀ l ∈ ls, '\n' ∉ l) →
    ((splitLines (joinLines ls)).map trim).filter (fun l => !l.isEmpty) =
      ((ls.map trim).filter (fun l => !l.isEmpty)) := by
  intro ls
  induction ls with
  | nil =>
    intro _
    show (((splitLinesAux [] []).map trim).filter _) = _
    rw [splitLinesAux.eq_1]
    simp [trim_nil]
  | cons l ls ih =>
    intro hno
    cases ls with
    | nil =>
      rw [show joinLines [l] = l from rfl, splitLines_noNL_single l (hno l (by simp))]
    | cons l' ls2 =>
      rw [show joinLines (l :: l' :: ls2) = l ++ '\n' :: joinLines (l' :: ls2) from rfl]
      show (((splitLinesAux (l ++ '\n' :: joinLines (l' :: ls2)) []).map trim).filter _) = _
      rw [splitLinesAux_append_nl l _ (hno l (by simp)) []]
      simp only [List.reverse_nil, List.nil_append, List.map_cons, List.filter_cons, trim_chop]
      rw [show splitLinesAux (joinLines (l' :: ls2)) [] = splitLines (joinLines (l' :: ls2)) from rfl]
      rw [ih (fun x hx => hno x (by simp [hx]))]
      simp [List.filter_cons]

lemma filter_trim_filter (L : List Str) :
    ((L.filter (fun l => !(trim l).isEmpty)).map trim).filter (fun l => !l.isEmpty) =
      (L.map trim).filter (fun l => !l.isEmpty) := by
  induction L with
  | nil => rfl
  | cons a L ih =>
    by_cases h : (trim a).isEmpty <;>
      simp [List.filter_cons, List.map_cons, h, ih]

/-! ### Keyword-prefix classification lemmas

With a concrete keyword prefix and a symbolic tail, every classifier of
the parsers reduces definitionally, so these are proofs by `rfl`. -/

lemma trim_datos_append (s : Str) :
    trim ("Datos:".toList ++ s) = "Datos:".toList ++ trimRight s := by
  have h := @trimRight_append_cons "Datos".toList ':' s (by decide)
  unfold trim
  rw [show ("Datos:".toList ++ s) = ("Datos".toList ++ ':' :: s) from rfl, h]
  rfl

lemma stepJS_datos (st : PState) (s : Str) :
    stepJS st ("Datos:".toList ++ s) =
      ((ensureCur st).1, some { (ensureCur st).2 with graph := some (parseDatosJS (trim s)) }) := by
  unfold stepJS
  rw [trim_datos_append]
  show ((ensureCur st).1,
    some { (ensureCur st).2 with graph := some (parseDatosJS (trim (trimRight s))) }) = _
  rw [trim_trimRight]

lemma step000_datos (sl : List Slide) (c : Slide) (s : Str) :
    step000 (sl, some c) ("Datos:".toList ++ s) =
      some (sl, some { c with graph := some (parseDatos000 (trim s)) }) := rfl

lemma step000_grafica_acc (sl : List Slide) (c : Slide) (s : Str) :
    step000 (sl, some c) ("Gráfica:".toList ++ s) =
      some (sl, some { c with graph := some (parseDatos000 (trim s)) }) := rfl

lemma step000_grafica_plain (sl : List Slide) (c : Slide) (s : Str) :
    step000 (sl, some c) ("Grafica:".toList ++ s) =
      some (sl, some { c with graph := some (parseDatos000 (trim s)) }) := rfl

/-! ### Fallback-line lemmas -/

lemma eq_none_of_isSome_false {α : Type} {o : Option α} (h : o.isSome = false) : o = none := by
  cases o with
  | none => rfl
  | some a => simp at h

lemma stripAlt_cons_none {p : Str} {ps : List Str} {s : Str} (h : stripAlt (p :: ps) s = none) :
    stripFold p s = none ∧ stripAlt ps s = none := by
  simp only [stripAlt] at h
  cases hf : stripFold p s with
  | some r => rw [hf] at h; exact absurd h (by simp)
  | none => rw [hf] at h; exact ⟨rfl, h⟩

lemma isKeyword000_parts {line : Str} (h : isKeyword000 line = false) :
    isMarkerLine line = false ∧ stripAlt tituloPats line = none ∧
    stripAlt contenidoPats line = none ∧ stripAlt datosTest000 line = none ∧
    stripAlt descPats line = none ∧ stripAlt adjPats line = none := by
  unfold isKeyword000 testAlt at h
  simp only [Bool.or_eq_false_iff] at h
  obtain ⟨⟨⟨⟨⟨h1, h2⟩, h3⟩, h4⟩, h5⟩, h6⟩ := h
  exact ⟨h1, eq_none_of_isSome_false h2, eq_none_of_isSome_false h3,
    eq_none_of_isSome_false h4, eq_none_of_isSome_false h5, eq_none_of_isSome_false h6⟩

lemma stepJS_fallback (st : PState) {l : Str} (hk : isKeyword000 (trim l) = false)
    (hne : (trim l).isEmpty = false) :
    stepJS st l = ((ensureCur st).1, some { (ensureCur st).2 with
      content := (ensureCur st).2.content ++ splitTrimFilter ';' (trim l) }) := by
  obtain ⟨h1, h2, h3, h4, h5, h6⟩ := isKeyword000_parts hk
  have h4' := stripAlt_cons_none (by rw [show datosTest000 =
    "Datos:".toList :: ["Gráfica:".toList, "Grafica:".toList] from rfl] at h4; exact h4)
  have hdJS : stripAlt datosPatsJS (trim l) = none := by
    show (match stripFold "Datos:".toList (trim l) with
      | some r => some r
      | none => stripAlt [] (trim l)) = none
    rw [h4'.1]
    rfl
  simp [stepJS, hne, h1, h2, h3, hdJS, h5, h6]

lemma stepJS_fallback_some (sl : List Slide) (c : Slide) {l : Str}
    (hk : isKeyword000 (trim l) = false) (hne : (trim l).isEmpty = false) :
    stepJS (sl, some c) l =
      (sl, some { c with content := c.content ++ splitTrimFilter ';' (trim l) }) := by
  rw [stepJS_fallback (sl, some c) hk hne]
  rfl

lemma stepJS_fallback_none (sl : List Slide) {l : Str}
    (hk : isKeyword000 (trim l) = false) (hne : (trim l).isEmpty = false) :
    stepJS (sl, none) l =
      (sl, some { emptySlide with content := splitTrimFilter ';' (trim l) }) := by
  rw [stepJS_fallback (sl, none) hk hne]
  rfl

lemma foldl_fallback_some : ∀ (ls : List Str), (∀ l ∈ ls, isKeyword000 (trim l) = false) →
    ∀ (sl : List Slide) (c : Slide),
      ls.foldl stepJS (sl, some c) =
        (sl, some { c with content :=
          c.content ++ (ls.map (fun l => splitTrimFilter ';' (trim l))).flatten }) := by
  intro ls
  induction ls with
  | nil =>
    intro _ sl c
    simp
  | cons l ls ih =>
    intro hk sl c
    rw [List.foldl_cons]
    by_cases hb : (trim l).isEmpty
    · rw [stepJS_blank hb]
      rw [ih (fun x hx => hk x (by simp [hx])) sl c]
      have h0 : splitTrimFilter ';' (trim l) = [] := by
        rw [List.isEmpty_iff.mp hb]
        rfl
      simp [h0]
    · rw [stepJS_fallback_some sl c (hk l (by simp)) (by simpa using hb)]
      rw [ih (fun x hx => hk x (by simp [hx])) sl _]
      simp [List.append_assoc]

lemma foldl_fallback_none : ∀ (ls : List Str), (∀ l ∈ ls, isKeyword000 (trim l) = false) →
    (∃ l ∈ ls, (trim l).isEmpty = false) → ∀ (sl : List Slide),
      ls.foldl stepJS (sl, none) =
        (sl, some { emptySlide with content :=
          (ls.map (fun l => splitTrimFilter ';' (trim l))).flatten }) := by
  intro ls
  induction ls with
  | nil =>
    intro _ hne sl
    simp at hne
  | cons l ls ih =>
    intro hk hne sl
    rw [List.foldl_cons]
    by_cases hb : (trim l).isEmpty
    · rw [stepJS_blank hb]
      have hne' : ∃ x ∈ ls, (trim x).isEmpty = false := by
        rcases hne with ⟨x, hx, hxe⟩
        rcases List.mem_cons.mp hx with h | hx'
        · rw [h] at hxe; rw [hb] at hxe; cases hxe
        · exact ⟨x, hx', hxe⟩
      rw [ih (fun x hx => hk x (by simp [hx])) hne' sl]
      have h0 : splitTrimFilter ';' (trim l) = [] := by
        rw [List.isEmpty_iff.mp hb]
        rfl
      simp [h0]
    · rw [stepJS_fallback_none sl (hk l (by simp)) (by simpa using hb)]
      rw [foldl_fallback_some ls (fun x hx => hk x (by simp [hx])) sl _]
      simp

lemma step000_skip (sl : List Slide) {l : Str} (hk : isKeyword000 l = false) :
    step000 (sl, none) l = some (sl, none) := by
  obtain ⟨h1, h2, h3, h4, h5, h6⟩ := isKeyword000_parts hk
  simp [step000, h1, h2, h3, h5, h6, testAlt, h4]

lemma step001_skip (sl : List Slide) {l : Str} (hk : isKeyword000 l = false) :
    step001 (sl, none) l = some (sl, none) := by
  obtain ⟨h1, h2, h3, h4, h5, h6⟩ := isKeyword000_parts hk
  have h2' := stripAlt_cons_none (by rw [show tituloPats =
    "Título:".toList :: ["Titulo:".toList] from rfl] at h2; exact h2)
  have h2'' : stripAlt tituloPats001 l = none := by
    show (match stripFold "Título:".toList l with
      | some r => some r
      | none => stripAlt [] l) = none
    rw [h2'.1]
    rfl
  simp [step001, h1, h2'', h3, h5, h6, testAlt, h4]

lemma foldlM_step000_skip : ∀ (ls : List Str), (∀ l ∈ ls, isKeyword000 l = false) →
    ∀ (sl : List Slide), ls.foldlM step000 (sl, none) = some (sl, none) := by
  intro ls
  induction ls with
  | nil => intro _ sl; rfl
  | cons l ls ih =>
    intro hk sl
    rw [List.foldlM_cons, step000_skip sl (hk l (by simp))]
    show List.foldlM step000 (sl, none) ls = some (sl, none)
    exact ih (fun x hx => hk x (by simp [hx])) sl

lemma foldlM_step001_skip : ∀ (ls : List Str), (∀ l ∈ ls, isKeyword000 l = false) →
    ∀ (sl : List Slide), ls.foldlM step001 (sl, none) = some (sl, none) := by
  intro ls
  induction ls with
  | nil => intro _ sl; rfl
  | cons l ls ih =>
    intro hk sl
    rw [List.foldlM_cons, step001_skip sl (hk l (by simp))]
    show List.foldlM step001 (sl, none) ls = some (sl, none)
    exact ih (fun x hx => hk x (by simp [hx])) sl

/-! ### Data-line section lemmas -/

lemma foldl_datosSecJS_id : ∀ (L : List Str) (g : Graph),
    (∀ sec ∈ L, stripAlt labelsPats (trim sec) = none ∧ stripAlt valoresPats (trim sec) = none) →
    L.foldl datosSecJS g = g := by
  intro L
  induction L with
  | nil => intro g _; rfl
  | cons a L ih =>
    intro g h
    have ha := h a (by simp)
    have h0 : datosSecJS g a = g := by
      unfold datosSecJS
      simp [ha.1, ha.2]
    rw [List.foldl_cons, h0]
    exact ih g (fun sec hs => h sec (by simp [hs]))

/-! ### No-empty-fragment invariant -/

lemma splitTrimFilter_mem {sep : Char} {s x : Str} (hx : x ∈ splitTrimFilter sep s) :
    trim x ≠ [] := by
  unfold splitTrimFilter at hx
  rw [List.mem_filter] at hx
  obtain ⟨hmem, hne⟩ := hx
  obtain ⟨y, hy, rfl⟩ := List.mem_map.mp hmem
  rw [trim_idem]
  intro hc
  rw [hc] at hne
  simp at hne

lemma fragsOk_splitTrimFilter (sep : Char) (s : Str) : fragsOk (splitTrimFilter sep s) :=
  fun _ hx => splitTrimFilter_mem hx

lemma fragsOk_append {xs ys : List Str} (hx : fragsOk xs) (hy : fragsOk ys) :
    fragsOk (xs ++ ys) := by
  intro x hx'
  rcases List.mem_append.mp hx' with h | h
  · exact hx x h
  · exact hy x h

lemma fragsOk_nil : fragsOk [] := by
  intro x hx
  simp at hx

lemma datosSecJS_labels_cases (g : Graph) (a : Str) :
    (datosSecJS g a).labels = g.labels ∨
      ∃ s', (datosSecJS g a).labels = splitTrimFilter ',' s' := by
  simp only [datosSecJS]
  split
  · exact Or.inl rfl
  · split
    · exact Or.inr ⟨_, rfl⟩
    · split
      · exact Or.inl rfl
      · exact Or.inl rfl

lemma foldl_datosSecJS_labels_ok : ∀ (L : List Str) (g : Graph),
    fragsOk g.labels → fragsOk (L.foldl datosSecJS g).labels := by
  intro L
  induction L with
  | nil => intro g hg; exact hg
  | cons a L ih =>
    intro g hg
    rw [List.foldl_cons]
    apply ih
    rcases datosSecJS_labels_cases g a with h | ⟨s', h⟩
    · rw [h]; exact hg
    · rw [h]; exact fragsOk_splitTrimFilter ',' s'

lemma parseDatosJS_labels_ok (r : Str) : fragsOk (parseDatosJS r).labels := by
  apply foldl_datosSecJS_labels_ok
  exact fragsOk_nil

lemma emptySlide_ok : slideOk emptySlide := by
  refine ⟨fragsOk_nil, fun g hg => ?_, fragsOk_nil⟩
  simp [emptySlide] at hg

lemma pushCur_ok {sl : List Slide} {cur : Option Slide}
    (hsl : ∀ s ∈ sl, slideOk s) (hcur : ∀ c, cur = some c → slideOk c) :
    ∀ s ∈ pushCur sl cur, slideOk s := by
  cases cur with
  | none => exact hsl
  | some c =>
    intro s hs
    rcases List.mem_append.mp hs with h' | h'
    · exact hsl s h'
    · rw [List.mem_singleton] at h'
      subst h'
      exact hcur _ rfl

lemma slideOk_set_title {s : Slide} (h : slideOk s) (t : Str) :
    slideOk { s with title := t } :=
  ⟨h.1, h.2.1, h.2.2⟩

lemma slideOk_set_description {s : Slide} (h : slideOk s) (t : Str) :
    slideOk { s with description := t } :=
  ⟨h.1, h.2.1, h.2.2⟩

lemma slideOk_append_content {s : Slide} (h : slideOk s) {ys : List Str} (hy : fragsOk ys) :
    slideOk { s with content := s.content ++ ys } :=
  ⟨fragsOk_append h.1 hy, h.2.1, h.2.2⟩

lemma slideOk_append_attachments {s : Slide} (h : slideOk s) {ys : List Str} (hy : fragsOk ys) :
    slideOk { s with attachments := s.attachments ++ ys } :=
  ⟨h.1, h.2.1, fragsOk_append h.2.2 hy⟩

lemma slideOk_set_graph {s : Slide} (h : slideOk s) (r : Str) :
    slideOk { s with graph := some (parseDatosJS r) } := by
  refine ⟨h.1, fun g hg => ?_, h.2.2⟩
  have := Option.some.inj hg
  subst this
  exact parseDatosJS_labels_ok r

lemma stepJS_ok (sl : List Slide) (cur : Option Slide) (h : stOk (sl, cur)) (l : Str) :
    stOk (stepJS (sl, cur) l) := by
  have hsl : ∀ s ∈ sl, slideOk s := h.1
  have hcur : ∀ c, cur = some c → slideOk c := h.2
  have hens1 : ∀ s ∈ (ensureCur (sl, cur)).1, slideOk s := by
    cases cur with
    | none => exact hsl
    | some c => exact hsl
  have hens2 : slideOk (ensureCur (sl, cur)).2 := by
    cases cur with
    | none => exact emptySlide_ok
    | some c => exact hcur c rfl
  have hok : ∀ c', (some c' : Option Slide) = some c' → slideOk c' → slideOk c' := fun _ _ hh => hh
  simp only [stepJS]
  split
  · exact h
  split
  · -- slide marker
    refine ⟨pushCur_ok hsl hcur, fun c hc => ?_⟩
    have := Option.some.inj hc
    subst this
    exact emptySlide_ok
  split
  · -- title
    refine ⟨hens1, fun c hc => ?_⟩
    have := Option.some.inj hc
    subst this
    exact slideOk_set_title hens2 _
  split
  · -- content
    refine ⟨hens1, fun c hc => ?_⟩
    have := Option.some.inj hc
    subst this
    split
    · exact ⟨hens2.1, hens2.2.1, hens2.2.2⟩
    · exact slideOk_append_content hens2 (fragsOk_splitTrimFilter _ _)
  split
  · -- data
    refine ⟨hens1, fun c hc => ?_⟩
    have := Option.some.inj hc
    subst this
    exact slideOk_set_graph hens2 _
  split
  · -- description
    refine ⟨hens1, fun c hc => ?_⟩
    have := Option.some.inj hc
    subst this
    exact slideOk_set_description hens2 _
  split
  · -- attachment
    refine ⟨hens1, fun c hc => ?_⟩
    have := Option.some.inj hc
    subst this
    split
    · exact ⟨hens2.1, hens2.2.1, hens2.2.2⟩
    · exact slideOk_append_attachments hens2 (fragsOk_splitTrimFilter _ _)
  · -- fallback
    refine ⟨hens1, fun c hc => ?_⟩
    have := Option.some.inj hc
    subst this
    exact slideOk_append_content hens2 (fragsOk_splitTrimFilter _ _)

lemma foldl_stepJS_ok : ∀ (ls : List Str) (st : PState), stOk st → stOk (ls.foldl stepJS st) := by
  intro ls
  induction ls with
  | nil => intro st h; exact h
  | cons l ls ih =>
    intro st h
    rw [List.foldl_cons]
    obtain ⟨sl, cur⟩ := st
    exact ih _ (stepJS_ok sl cur h l)

lemma parseScript_ok (raw : Str) : ∀ s ∈ parseScript raw, slideOk s := by
  have h0 : stOk (([], none) : PState) := by
    refine ⟨fun s hs => ?_, fun c hc => ?_⟩
    · simp at hs
    · cases hc
  have h := foldl_stepJS_ok (splitLines raw) ([], none) h0
  exact pushCur_ok h.1 h.2

/-! ### Generic map/filter lemma used for the values pipeline -/

lemma filter_map_eq_filterMap {α β : Type} (f : α → β) (p : β → Bool) :
    ∀ (L : List α),
      (L.map f).filter p = L.filterMap (fun x => if p (f x) then some (f x) else none) := by
  intro L
  induction L with
  | nil => rfl
  | cons a L ih =>
    by_cases h : p (f a) <;> simp [List.filterMap_cons, List.filter_cons, h, ih]

lemma parseValores_length (valStr : Str) :
    (parseValores valStr).length ≤ (valStr.splitOn ',').length := by
  unfold parseValores
  exact le_trans (List.length_filter_le _ _) (le_of_eq (List.length_map _ _))

/-! ### Claims -/

/-- C1: the spec's no-failure contract — parseScript returns a slide
sequence without throwing, degrading malformed input to content, the
worst case being the empty sequence — holds of src/script.js (which
lazily creates a slide for a keyword line before any marker, and maps
empty or all-blank input to []), but the src/unnamed/part_000 copy
dereferences the null current slide in its keyword branches: on the
single line "Titulo: x" it throws a TypeError, modelled as `none`. -/
theorem c1_no_failure_contract_violated :
    parseScript_000 "Titulo: x".toList = none ∧
    parseScript "Titulo: x".toList =
      [{ title := "x".toList, content := [], graph := none, description := [],
         attachments := [] }] ∧
    parseScript "".toList = [] ∧
    parseScript " \n  \n".toList = [] := by with_unfolding_all decide

/-- C2 (counterexample): in src/script.js a line starting with
"Grafica:" is not processed as a Data line: it falls through to the
fallback branch, ending up as plain content with the slide's graph still
absent, contradicting the claim that all three Data/Chart spellings set
the graph. -/
theorem c2_counterexample :
    parseScript "Diapositiva 1\nGrafica: Labels: a; Valores: 1".toList =
      [{ title := [], content := ["Grafica: Labels: a".toList, "Valores: 1".toList],
         graph := none, description := [], attachments := [] }] := by with_unfolding_all decide

/-- C2 (amended): the three Data spellings ("Datos:", "Gráfica:",
"Grafica:", case-insensitively) are all processed as Data lines in the
part_000/part_001 copies; src/script.js recognizes only "Datos:", its
test rejecting both "Gráfica:" and "Grafica:" prefixed lines, which fall
through to fallback content there.  The remaining keyword wire format
("Diapositiva N", Título, Contenido/Contexto, the Labels/Values
sub-keys, Descripción, comma-separated Adjunto) is recognized
case-insensitively as specified. -/
theorem c2_amended_keywords :
    (∀ (sl : List Slide) (c : Slide) (s : Str),
      step000 (sl, some c) ("Datos:".toList ++ s) =
        some (sl, some { c with graph := some (parseDatos000 (trim s)) }) ∧
      step000 (sl, some c) ("Gráfica:".toList ++ s) =
        some (sl, some { c with graph := some (parseDatos000 (trim s)) }) ∧
      step000 (sl, some c) ("Grafica:".toList ++ s) =
        some (sl, some { c with graph := some (parseDatos000 (trim s)) })) ∧
    (∀ s : Str, testAlt datosPatsJS ("Datos:".toList ++ s) = true ∧
      testAlt datosPatsJS ("Gráfica:".toList ++ s) = false ∧
      testAlt datosPatsJS ("Grafica:".toList ++ s) = false) ∧
    parseScript
        "DIAPOSITIVA 1\nTÍTULO: t\nCONTEXTO: c\nDATOS: LABELS: a; VALUES: 1\nDESCRIPCIÓN: d\nADJUNTO: f1, f2".toList =
      [{ title := "t".toList, content := ["c".toList],
         graph := some { labels := ["a".toList], values := [JSNum.num 1] },
         description := "d".toList, attachments := ["f1".toList, "f2".toList] }] :=
  ⟨fun sl c s => ⟨step000_datos sl c s, step000_grafica_acc sl c s, step000_grafica_plain sl c s⟩,
   fun _ => ⟨rfl, rfl, rfl⟩, by with_unfolding_all decide⟩

/-- C3 (counterexample): the part_000 copy has no lazy slide creation:
its fallback branch is guarded by `else if (current)`, so an input with
no slide marker and one non-empty line yields `some []` — the line is
lost — not a single-element sequence. -/
theorem c3_counterexample : parseScript_000 "hola".toList = some [] := by with_unfolding_all decide

/-- C3 (amended): lazy slide creation holds for src/script.js: for every
input whose trimmed lines include at least one non-blank line and none
matching any keyword or marker of any copy, parseScript returns exactly
one slide whose content is the in-order concatenation of the lines'
fallback `;`-split fragments.  In the part_000 and part_001 copies such
lines are silently dropped for lack of a current slide and the result is
empty. -/
theorem c3_amended_lazy_creation (raw : Str)
    (hne : ∃ l ∈ splitLines raw, (trim l).isEmpty = false)
    (hk : ∀ l ∈ splitLines raw, isKeyword000 (trim l) = false) :
    parseScript raw =
      [{ emptySlide with content :=
        ((splitLines raw).map (fun l => splitTrimFilter ';' (trim l))).flatten }] ∧
    parseScript_000 raw = some [] ∧
    parseScript_001 raw = some [] := by
  have hk' : ∀ l ∈ lines000 raw, isKeyword000 l = false := by
    intro l hl
    unfold lines000 at hl
    rw [List.mem_filter] at hl
    obtain ⟨hmem, _⟩ := hl
    obtain ⟨y, hy, rfl⟩ := List.mem_map.mp hmem
    exact hk y hy
  refine ⟨?_, ?_, ?_⟩
  · show parseLinesJS (splitLines raw) = _
    unfold parseLinesJS
    rw [foldl_fallback_none (splitLines raw) hk hne []]
    rfl
  · show parseLines000 (lines000 raw) = some []
    unfold parseLines000
    rw [foldlM_step000_skip (lines000 raw) hk' []]
    rfl
  · show parseLines001 (lines000 raw) = some []
    unfold parseLines001
    rw [foldlM_step001_skip (lines000 raw) hk' []]
    rfl

/-- C3 (witness): the amended claim at the concrete two-line fallback
input "hola; mundo" / "segunda". -/
theorem c3_amended_lazy_creation_witness :
    parseScript "hola; mundo\nsegunda".toList =
      [{ emptySlide with content :=
        ((splitLines "hola; mundo\nsegunda".toList).map
          (fun l => splitTrimFilter ';' (trim l))).flatten }] ∧
    parseScript_000 "hola; mundo\nsegunda".toList = some [] ∧
    parseScript_001 "hola; mundo\nsegunda".toList = some [] :=
  c3_amended_lazy_creation _ (by with_unfolding_all decide) (by with_unfolding_all decide)

/-- C4 (counterexample): in the part_001 copy only the accented
spelling of the Title keyword is recognized; the unaccented line
"TITULO: x" does not set the title and is swallowed by the fallback
branch as plain content. -/
theorem c4_counterexample :
    parseScript_001 "Diapositiva 1\nTITULO: x".toList =
      some [{ title := [], content := ["TITULO: x".toList], graph := none,
              description := [], attachments := [] }] := by with_unfolding_all decide

/-- C4 (amended): in src/script.js and the part_000 copy the Title
keyword is matched case-insensitively with the accent on the i optional,
so "TITULO: x", "Título: x" and "titulo: x" all set the slide title to
"x"; in the part_001 copy only the accented spelling (still
case-insensitively) does so. -/
theorem c4_amended_case_accent :
    (parseScript "Diapositiva 1\nTITULO: x".toList =
        [{ emptySlide with title := "x".toList }] ∧
      parseScript "Diapositiva 1\nTítulo: x".toList =
        [{ emptySlide with title := "x".toList }] ∧
      parseScript "Diapositiva 1\ntitulo: x".toList =
        [{ emptySlide with title := "x".toList }]) ∧
    (parseScript_000 "Diapositiva 1\nTITULO: x".toList =
        some [{ emptySlide with title := "x".toList }] ∧
      parseScript_000 "Diapositiva 1\nTítulo: x".toList =
        some [{ emptySlide with title := "x".toList }] ∧
      parseScript_000 "Diapositiva 1\ntitulo: x".toList =
        some [{ emptySlide with title := "x".toList }]) ∧
    (parseScript_001 "Diapositiva 1\nTÍTULO: x".toList =
        some [{ emptySlide with title := "x".toList }] ∧
      parseScript_001 "Diapositiva 1\ntítulo: x".toList =
        some [{ emptySlide with title := "x".toList }]) := by
  with_unfolding_all decide

/-- C5: a Data line replaces the slide's graph wholesale: in script.js
and part_000 alike, processing a "Datos:" line on any current slide
yields exactly the graph built from that line's remainder over a fresh
record with both lists empty, independent of any previously stored
graph; concretely, a second Data line fully replaces the first (its
Etiquetas/Valores leave no trace). -/
theorem c5_graph_replaced_wholesale :
    (∀ (st : PState) (s : Str),
      stepJS st ("Datos:".toList ++ s) =
        ((ensureCur st).1,
          some { (ensureCur st).2 with graph := some (parseDatosJS (trim s)) })) ∧
    (∀ (sl : List Slide) (c : Slide) (s : Str),
      step000 (sl, some c) ("Datos:".toList ++ s) =
        some (sl, some { c with graph := some (parseDatos000 (trim s)) })) ∧
    parseScript "Diapositiva 1\nDatos: Etiquetas: a; Valores: 1, 2\nDatos: Labels: b".toList =
      [{ emptySlide with graph := some { labels := ["b".toList], values := [] } }] :=
  ⟨stepJS_datos, step000_datos, by with_unfolding_all decide⟩

/-- C6: numeric filtering of graph values: the values pipeline maps
parseFloat over the trimmed comma-separated tokens and keeps, in order,
exactly those that parse (dropping NaN results rather than recording a
placeholder), so the values list never exceeds the token count; the
spec's own example line yields labels ["a","b"] and values [1, 3] with
the token "foo" dropped. -/
theorem c6_values_numeric_filtering :
    (∀ valStr : Str, parseValores valStr =
      (valStr.splitOn ',').filterMap (fun x =>
        if !(jsParseFloat (trim x)).isNaN then some (jsParseFloat (trim x)) else none)) ∧
    (∀ valStr : Str, (parseValores valStr).length ≤ (valStr.splitOn ',').length) ∧
    parseScript "Diapositiva 1\nDatos: Labels: a, b; Values: 1, foo, 3".toList =
      [{ emptySlide with graph := some { labels := ["a".toList, "b".toList], values := [JSNum.num 1, JSNum.num 3] } }] :=
  ⟨fun valStr => filter_map_eq_filterMap (fun x => jsParseFloat (trim x))
      (fun v => !v.isNaN) (valStr.splitOn ','),
   parseValores_length, by with_unfolding_all decide⟩

/-- C7: blank-line invariance: parsing any input gives the same slides
as parsing the input with all lines that are blank after trimming
removed, for src/script.js and the part_000 copy alike — blank lines
never start, end, split, or merge slides. -/
theorem c7_blank_line_invariance (raw : Str) :
    parseScript raw = parseScript (removeBlankLines raw) ∧
    parseScript_000 raw = parseScript_000 (removeBlankLines raw) := by
  have hF : ∀ l ∈ (splitLines raw).filter (fun l => !(trim l).isEmpty), '\n' ∉ l :=
    fun l hl => splitLines_noNL raw l (List.mem_of_mem_filter hl)
  constructor
  · show parseLinesJS (splitLines raw) = parseLinesJS (splitLines (removeBlankLines raw))
    unfold parseLinesJS
    rw [show removeBlankLines raw =
      joinLines ((splitLines raw).filter (fun l => !(trim l).isEmpty)) from rfl]
    rw [foldl_stepJS_splitJoin _ hF ([], none)]
    rw [← foldl_stepJS_filter_blank]
  · show parseLines000 (lines000 raw) = parseLines000 (lines000 (removeBlankLines raw))
    suffices h : lines000 (removeBlankLines raw) = lines000 raw by rw [h]
    unfold lines000
    rw [show removeBlankLines raw =
      joinLines ((splitLines raw).filter (fun l => !(trim l).isEmpty)) from rfl]
    rw [filtered_trim_splitJoin _ hF]
    exact filter_trim_filter (splitLines raw)

/-- C7 (witness): blank-line invariance at the spec's own test input. -/
theorem c7_blank_line_invariance_witness :
    parseScript "Diapositiva 1\nTítulo: A\n\n\nContenido: z".toList =
      parseScript (removeBlankLines "Diapositiva 1\nTítulo: A\n\n\nContenido: z".toList) :=
  (c7_blank_line_invariance "Diapositiva 1\nTítulo: A\n\n\nContenido: z".toList).1

/-- C8: a Data line none of whose sections matches the labels or values
sub-prefixes sets the slide's graph to a record with two empty lists —
not an absent graph — while a fresh slide's graph is null, so the two
cases stay distinguishable downstream; concretely "Datos: foo" gives
graph some ⟨[], []⟩ where "Contenido: foo" leaves graph none. -/
theorem c8_empty_graph_record (r : Str)
    (h : ∀ sec ∈ r.splitOn ';', stripAlt labelsPats (trim sec) = none ∧
      stripAlt valoresPats (trim sec) = none) :
    parseDatosJS r = { labels := [], values := [] } ∧
    emptySlide.graph = none ∧
    (parseScript "Diapositiva 1\nDatos: foo".toList).map Slide.graph =
      [some { labels := [], values := [] }] ∧
    (parseScript "Diapositiva 1\nContenido: foo".toList).map Slide.graph = [none] := by
  refine ⟨?_, rfl, by with_unfolding_all decide, by with_unfolding_all decide⟩
  unfold parseDatosJS
  exact foldl_datosSecJS_id _ _ h

/-- C8 (witness): the theorem at the remainder "foo", whose single
section matches neither sub-prefix. -/
theorem c8_empty_graph_record_witness :
    parseDatosJS "foo".toList = { labels := [], values := [] } ∧
    emptySlide.graph = none ∧
    (parseScript "Diapositiva 1\nDatos: foo".toList).map Slide.graph =
      [some { labels := [], values := [] }] ∧
    (parseScript "Diapositiva 1\nContenido: foo".toList).map Slide.graph = [none] :=
  c8_empty_graph_record "foo".toList (by decide)

/-- C9: no empty fragments: every slide parseScript (src/script.js)
produces has no empty or whitespace-only element in its content, graph
labels, or attachments — whitespace-only fragments between the ';' and
',' delimiters are dropped, never appended. -/
theorem c9_no_empty_fragments (raw : Str) (sl : Slide) (hsl : sl ∈ parseScript raw) :
    (∀ x ∈ sl.content, trim x ≠ []) ∧
    (∀ g, sl.graph = some g → ∀ x ∈ g.labels, trim x ≠ []) ∧
    (∀ x ∈ sl.attachments, trim x ≠ []) :=
  parseScript_ok raw sl hsl

/-- C9 (witness): the invariant at a concrete parse containing an
empty ';' fragment and an empty ',' fragment, both dropped. -/
theorem c9_no_empty_fragments_witness :
    (∀ x ∈ ({ emptySlide with content := ["a".toList, "b".toList], attachments := ["f".toList] } : Slide).content, trim x ≠ []) ∧
    (∀ g, ({ emptySlide with content := ["a".toList, "b".toList], attachments := ["f".toList] } : Slide).graph = some g → ∀ x ∈ g.labels, trim x ≠ []) ∧
    (∀ x ∈ ({ emptySlide with content := ["a".toList, "b".toList], attachments := ["f".toList] } : Slide).attachments, trim x ≠ []) :=
  c9_no_empty_fragments "Diapositiva 1\nContenido: a; ;b\nAdjunto: f, ,".toList
    ({ emptySlide with content := ["a".toList, "b".toList], attachments := ["f".toList] })
    (by with_unfolding_all decide)

/-- C10: slide-marker remainder is discarded: on any line whose trimmed
form passes the marker test (the marker word, whitespace, a digit), each
parser flushes the current slide, if any, and installs a fresh default
slide — the whole state transition is independent of everything after
the match, so the number and any trailing text contribute to no field of
any slide. -/
theorem c10_marker_remainder_discarded (sl : List Slide) (cur : Option Slide) (l : Str)
    (h : isMarkerLine (trim l) = true) :
    stepJS (sl, cur) l = (pushCur sl cur, some emptySlide) ∧
    step000 (sl, cur) (trim l) = some (pushCur sl cur, some emptySlide) ∧
    step001 (sl, cur) (trim l) = some (pushCur sl cur, some emptySlide) := by
  have hne : (trim l).isEmpty = false := by
    cases htl : trim l with
    | nil => rw [htl] at h; exact absurd h (by decide)
    | cons a t => rfl
  refine ⟨?_, ?_, ?_⟩
  · simp [stepJS, hne, h]
  · simp [step000, h]
  · simp [step001, h]

/-- C10 (witness): the marker line "Diapositiva 3 Introducción" flushes
the current slide and starts a fresh one; the trailing text is gone. -/
theorem c10_marker_remainder_discarded_witness :
    stepJS ([], some emptySlide) "Diapositiva 3 Introducción".toList =
      (pushCur [] (some emptySlide), some emptySlide) ∧
    step000 ([], some emptySlide) (trim "Diapositiva 3 Introducción".toList) =
      some (pushCur [] (some emptySlide), some emptySlide) ∧
    step001 ([], some emptySlide) (trim "Diapositiva 3 Introducción".toList) =
      some (pushCur [] (some emptySlide), some emptySlide) :=
  c10_marker_remainder_discarded [] (some emptySlide)
    "Diapositiva 3 Introducción".toList (by decide)
